import Mathlib

/-!
Verification of the annotation core of AI2D-RST (`utils/core/annotate.py`):
`create_relation` and `group_nodes`, together with the graph collaborator
and the node-index helper they rely on.

The graph is modelled, following the design document, as a labeled directed
multigraph: an ordered list of nodes (identifier paired with an attribute
record) and an ordered list of directed edges.  `add_node` on an existing
identifier updates the supplied attributes in place; `add_edge` first
creates any missing endpoint and then appends the edge.
-/

namespace AI2D

/-- Python `str.split()` with no arguments: split on runs of whitespace,
dropping empty pieces.  `acc` holds the characters of the token currently
being read, in reverse order. -/
def pySplitAux : List Char → List Char → List String
  | [], acc => if acc = [] then [] else [String.mk acc.reverse]
  | c :: rest, acc =>
    if c.isWhitespace then
      if acc = [] then pySplitAux rest []
      else String.mk acc.reverse :: pySplitAux rest []
    else pySplitAux rest (c :: acc)

/-- Python `str.split()` on a string. -/
def pySplit (s : String) : List String := pySplitAux s.data []

/-- Python `str.upper()`. -/
def strUpper (s : String) : String := String.mk (s.data.map Char.toUpper)

/-- Python `str.lower()`. -/
def strLower (s : String) : String := String.mk (s.data.map Char.toLower)

/-- The tokenisation applied to every interactive input line in
`create_relation`: split on whitespace, then lower-case each token. -/
def lowerTokens (s : String) : List String := (pySplit s).map strLower

/-- Python `sep.join(parts)`. -/
def joinSep (sep : String) : List String → String
  | [] => ""
  | [x] => x
  | x :: y :: rest => x ++ sep ++ joinSep sep (y :: rest)

/-- Node attributes.  A field holds `none` when the corresponding keyword
was never supplied to `add_node` for this node. -/
structure NodeData where
  kind : Option String := none
  nucleus : Option (List String) := none
  satellites : Option (List String) := none
  nuclei : Option (List String) := none
  name : Option String := none
  id : Option String := none
  deriving Repr, DecidableEq

/-- Overwrite the attributes of an existing node with the keyword arguments
of a new `add_node` call: a supplied (`some`) field wins, an unsupplied
(`none`) field keeps the old value — Python `dict.update` semantics. -/
def NodeData.updateWith (old new : NodeData) : NodeData where
  kind := match new.kind with | some v => some v | none => old.kind
  nucleus := match new.nucleus with | some v => some v | none => old.nucleus
  satellites := match new.satellites with | some v => some v | none => old.satellites
  nuclei := match new.nuclei with | some v => some v | none => old.nuclei
  name := match new.name with | some v => some v | none => old.name
  id := match new.id with | some v => some v | none => old.id

/-- A labeled directed multigraph: nodes in insertion order with their
attributes, and directed edges in insertion order. -/
structure Graph where
  nodes : List (String × NodeData)
  edges : List (String × String)
  deriving Repr, DecidableEq

/-- The list of node identifiers of a graph. -/
def Graph.ids (g : Graph) : List String := g.nodes.map Prod.fst

/-- Whether a graph has a node with the given identifier. -/
def Graph.hasId (g : Graph) (n : String) : Prop := ∃ p ∈ g.nodes, p.1 = n

instance (g : Graph) (n : String) : Decidable (g.hasId n) :=
  inferInstanceAs (Decidable (∃ p ∈ g.nodes, p.1 = n))

/-- `add_node`: insert a node, or update the attributes of an existing node
with the supplied keyword arguments. -/
def addNode (g : Graph) (n : String) (d : NodeData) : Graph :=
  if g.hasId n then
    { g with nodes := g.nodes.map (fun p => if p.1 = n then (p.1, p.2.updateWith d) else p) }
  else
    { g with nodes := g.nodes ++ [(n, NodeData.updateWith {} d)] }

/-- Create a node with no attributes when the identifier is absent
(the graph collaborator adds an edge "between two existing-or-new node
IDs", so a missing endpoint is created on the fly). -/
def ensureNode (g : Graph) (n : String) : Graph :=
  if g.hasId n then g
  else { g with nodes := g.nodes ++ [(n, {})] }

/-- `add_edge`: create missing endpoints, then append the directed edge. -/
def addEdge (g : Graph) (u v : String) : Graph :=
  let g1 := ensureNode g u
  let g2 := ensureNode g1 v
  { g2 with edges := g2.edges ++ [(u, v)] }

/-- Lookup in an insertion-ordered dictionary represented as a list of
key-value pairs. -/
def dictGet {α : Type} : List (String × α) → String → Option α
  | [], _ => none
  | p :: rest, k => if p.1 = k then some p.2 else dictGet rest k

/-- Insertion into an insertion-ordered dictionary: overwriting an existing
key keeps its position, a new key is appended — Python `dict` semantics. -/
def dictInsert {α : Type} : List (String × α) → String → α → List (String × α)
  | [], k, v => [(k, v)]
  | p :: rest, k, v => if p.1 = k then (k, v) :: rest else p :: dictInsert rest k v

/-- Modelled from the spec: `get_node_dict` (defined in `utils/core/parse.py`,
which is not part of the sources) builds, from the current graph state, a
transient mapping keyed by the upper-cased node identifier and valued by the
node's `kind`, optionally restricted to nodes of one kind. -/
def getNodeDict (g : Graph) (kindFilter : Option String) : List (String × Option String) :=
  (g.nodes.filter (fun p =>
      match kindFilter with
      | some k => p.2.kind == some k
      | none => true)).foldl
    (fun d p => dictInsert d (strUpper p.1) p.2.kind) []

/-- Lines 34–35 of `annotate.py`: enumerate the current relation nodes in
index order and rename them `r1`, `r2`, … mapping the alias to the relation
node's identifier (the key of the node dictionary). -/
def relationIxOf (g : Graph) : List (String × String) :=
  (getNodeDict g (some "relation")).enum.map (fun p => ("r" ++ Nat.repr (p.1 + 1), p.2.1))

/-- Lines 26–41: the set of valid identifiers, lower-cased node-dictionary
keys together with lower-cased relation aliases. -/
def validIdsOf (g : Graph) : List String :=
  ((getNodeDict g (some "node")).map (fun p => strLower p.1)) ++
  ((relationIxOf g).map (fun p => strLower p.1))

/-- The origin of an edge drawn for a satellite (mononuclear) or nucleus
(multinuclear) token: a token that is a key of the relation alias index is
resolved to the aliased relation's identifier, any other token is
upper-cased and used directly (lines 111–127 and 176–193). -/
def edgeOrigin (relationIx : List (String × String)) (s : String) : String :=
  match dictGet relationIx s with
  | some origin => origin
  | none => strUpper s

/-- Tokens reported in an invalid-identifier error: the set difference
between the supplied tokens and the valid identifiers. -/
def diffTokens (ts validIds : List String) : List String :=
  (ts.filter (fun t => decide (t ∉ validIds))).dedup

/-- The console prompts `create_relation` can issue. -/
inductive Prompt where
  | nucleusId
  | satelliteId
  | nucleiId
  deriving Repr, DecidableEq

/-- The console messages `create_relation` can print. -/
inductive Msg where
  | nucleusArityErr
  | nucleiArityErr
  | invalidNucleus (tokens : List String)
  | invalidTokens (tokens : List String)
  deriving Repr, DecidableEq

/-- Result of a `create_relation` call: the graph after the call, the
prompts issued and the messages printed, in order. -/
structure CRResult where
  graph : Graph
  prompts : List Prompt
  printed : List Msg
  deriving Repr, DecidableEq

/-- `create_relation` (lines 7–193 of `annotate.py`).  The catalog entry for
`user_input` is passed as its resolved `name` and `kind`; the interactive
lines are passed as `line1` (first prompt) and `line2` (second prompt). -/
def createRelation (relationName relationKind : String) (g : Graph)
    (line1 line2 : String) : CRResult :=
  let relationIx := relationIxOf g
  let validIds := validIdsOf g
  if relationKind = "mono" then
    let nucleus := lowerTokens line1
    if nucleus.length ≠ 1 then
      ⟨g, [Prompt.nucleusId], [Msg.nucleusArityErr]⟩
    else if ¬ (∀ t ∈ nucleus, t ∈ validIds) then
      ⟨g, [Prompt.nucleusId], [Msg.invalidNucleus nucleus]⟩
    else
      let satellites := lowerTokens line2
      if ¬ (∀ t ∈ satellites, t ∈ validIds) then
        ⟨g, [Prompt.nucleusId, Prompt.satelliteId],
         [Msg.invalidTokens (diffTokens satellites validIds)]⟩
      else
        let newRelation := strUpper (joinSep "" nucleus) ++ "-" ++
                           strUpper (joinSep "+" satellites)
        let g1 := addNode g newRelation
          { kind := some "relation", nucleus := some nucleus,
            satellites := some satellites, name := some relationName,
            id := some newRelation }
        let g2 := satellites.foldl
          (fun h s => addEdge h (edgeOrigin relationIx s) newRelation) g1
        let g3 := nucleus.foldl
          (fun h n => addEdge h (strUpper n) newRelation) g2
        ⟨g3, [Prompt.nucleusId, Prompt.satelliteId], []⟩
  else if relationKind = "multi" then
    let nuclei := lowerTokens line1
    if nuclei.length ≤ 1 then
      ⟨g, [Prompt.nucleiId], [Msg.nucleiArityErr]⟩
    else if ¬ (∀ t ∈ nuclei, t ∈ validIds) then
      ⟨g, [Prompt.nucleiId], [Msg.invalidTokens (diffTokens nuclei validIds)]⟩
    else
      let newRelation := strUpper (joinSep "+" nuclei)
      let g1 := addNode g newRelation
        { kind := some "relation", nuclei := some nuclei,
          name := some relationName, id := some newRelation }
      let g2 := nuclei.foldl
        (fun h n => addEdge h (edgeOrigin relationIx n) newRelation) g1
      ⟨g2, [Prompt.nucleiId], []⟩
  else
    ⟨g, [], []⟩

/-- Turn a list of optional values into an optional list: `none` as soon as
one lookup fails (a failing dictionary lookup in Python raises). -/
def seqOpt {α : Type} : List (Option α) → Option (List α)
  | [] => some []
  | none :: _ => none
  | some a :: rest =>
    match seqOpt rest with
    | some l => some (a :: l)
    | none => none

/-- `group_nodes` (lines 196–231 of `annotate.py`).  Returns `none` when a
supplied identifier is absent from the node dictionary (a fatal `KeyError`
in the original). -/
def groupNodes (g : Graph) (userInput : List String) : Option Graph :=
  let nodeDict := getNodeDict g none
  match seqOpt (userInput.map (fun u => dictGet nodeDict (strUpper u))) with
  | none => none
  | some inputNodeTypes =>
    if some "imageConsts" ∈ inputNodeTypes then
      some (nodeDict.foldl
        (fun h p =>
          if p.2 = some "imageConsts" then
            userInput.foldl (fun h2 u => addEdge h2 (strUpper u) (strUpper p.1)) h
          else h)
        g)
    else
      let newNode := strUpper (joinSep "+" userInput)
      let g1 := addNode g newNode { kind := some "group" }
      some (userInput.foldl (fun h u => addEdge h (strUpper u) newNode) g1)

/-- The identifier synthesized for a successful mononuclear relation
(line 99): upper-cased nucleus, `-`, `+`-joined upper-cased satellites. -/
def monoRelId (line1 line2 : String) : String :=
  strUpper (joinSep "" (lowerTokens line1)) ++ "-" ++
  strUpper (joinSep "+" (lowerTokens line2))

/-- The identifier synthesized for a successful multinuclear relation
(line 167): `+`-joined upper-cased nuclei. -/
def multiRelId (line1 : String) : String :=
  strUpper (joinSep "+" (lowerTokens line1))

/-! ### Concrete graphs used as test inputs -/

/-- Attributes of a plain diagram-element node. -/
def kindNode : NodeData := { kind := some "node" }

/-- Attributes of an RST-relation node (only the fields relevant here). -/
def kindRel : NodeData := { kind := some "relation" }

/-- Attributes of an image-constants node. -/
def kindImg : NodeData := { kind := some "imageConsts" }

/-- Two diagram elements `A` and `B`, no edges. -/
def gW : Graph := ⟨[("A", kindNode), ("B", kindNode)], []⟩

/-- Two diagram elements and one existing relation node `X-Y`, which the
alias index renames `r1`. -/
def gA : Graph := ⟨[("A", kindNode), ("B", kindNode), ("X-Y", kindRel)], []⟩

/-- Two diagram elements and an existing relation node `A-B`: a mononuclear
call with nucleus `a` and satellite `b` re-synthesizes the identifier
`A-B`, which already names a node. -/
def gC1 : Graph := ⟨[("A", kindNode), ("B", kindNode), ("A-B", kindRel)], []⟩

/-- Two diagram elements and an existing node `A+B`: a multinuclear call
with nuclei `a b` re-synthesizes the identifier `A+B`. -/
def gC3 : Graph := ⟨[("A", kindNode), ("B", kindNode), ("A+B", kindNode)], []⟩

/-- A single image-constants node whose identifier is lower-case, so its
upper-cased form does not name any node. -/
def gC6 : Graph := ⟨[("const0", kindImg)], []⟩

/-- Two diagram elements and an existing node `A+B`: grouping `a b`
re-synthesizes the identifier `A+B`. -/
def gC7 : Graph := ⟨[("A", kindNode), ("B", kindNode), ("A+B", kindNode)], []⟩

/-- An image-constants node and a diagram element, upper-case identifiers. -/
def gI : Graph := ⟨[("I0", kindImg), ("A", kindNode)], []⟩

/-! ### Sanity checks on concrete inputs -/

example : pySplit "a b" = ["a", "b"] := by decide
example : pySplit "  a   b " = ["a", "b"] := by decide
example : pySplit "" = [] := by decide
example : lowerTokens "A b" = ["a", "b"] := by decide
example : strUpper "a-b" = "A-B" := by decide
example : joinSep "+" ["a", "b", "c"] = "a+b+c" := by decide

/-! ### Basic lemmas about the graph collaborator -/

theorem addNode_edges (g : Graph) (n : String) (d : NodeData) :
    (addNode g n d).edges = g.edges := by
  unfold addNode; split <;> rfl

theorem addNode_nodes_of_fresh (g : Graph) (n : String) (d : NodeData)
    (h : ¬ g.hasId n) :
    (addNode g n d).nodes = g.nodes ++ [(n, NodeData.updateWith {} d)] := by
  unfold addNode; rw [if_neg h]

theorem ensureNode_of_mem (g : Graph) (n : String) (h : g.hasId n) :
    ensureNode g n = g := by
  unfold ensureNode; rw [if_pos h]

theorem ensureNode_nodes_exists (g : Graph) (n : String) :
    ∃ l, (ensureNode g n).nodes = g.nodes ++ l := by
  unfold ensureNode; split
  · exact ⟨[], (List.append_nil _).symm⟩
  · exact ⟨[(n, {})], rfl⟩

theorem ensureNode_edges (g : Graph) (n : String) :
    (ensureNode g n).edges = g.edges := by
  unfold ensureNode; split <;> rfl

theorem addEdge_edges (g : Graph) (u v : String) :
    (addEdge g u v).edges = g.edges ++ [(u, v)] := by
  simp only [addEdge, ensureNode_edges]

theorem addEdge_nodes_of_mem (g : Graph) (u v : String)
    (hu : g.hasId u) (hv : g.hasId v) :
    (addEdge g u v).nodes = g.nodes := by
  simp only [addEdge]
  rw [ensureNode_of_mem g u hu, ensureNode_of_mem g v hv]

theorem addEdge_nodes_exists (g : Graph) (u v : String) :
    ∃ l, (addEdge g u v).nodes = g.nodes ++ l := by
  simp only [addEdge]
  obtain ⟨l1, h1⟩ := ensureNode_nodes_exists g u
  obtain ⟨l2, h2⟩ := ensureNode_nodes_exists (ensureNode g u) v
  exact ⟨l1 ++ l2, by rw [h2, h1, List.append_assoc]⟩

theorem hasId_of_nodes_eq {g g2 : Graph} (h : g2.nodes = g.nodes) (n : String) :
    g.hasId n → g2.hasId n := by
  rintro ⟨p, hp, he⟩
  exact ⟨p, h ▸ hp, he⟩

/-! ### Folds that draw one edge per token -/

theorem foldl_addEdge_edges (f : String → String) (t : String) (l : List String) :
    ∀ g : Graph,
      (l.foldl (fun h s => addEdge h (f s) t) g).edges =
        g.edges ++ l.map (fun s => (f s, t)) := by
  induction l with
  | nil => intro g; simp
  | cons s rest ih =>
    intro g
    simp only [List.foldl_cons, List.map_cons]
    rw [ih, addEdge_edges]
    simp

theorem foldl_addEdge_nodes_exists (f : String → String) (t : String) (l : List String) :
    ∀ g : Graph, ∃ l2,
      (l.foldl (fun h s => addEdge h (f s) t) g).nodes = g.nodes ++ l2 := by
  induction l with
  | nil => intro g; exact ⟨[], (List.append_nil _).symm⟩
  | cons s rest ih =>
    intro g
    obtain ⟨l1, h1⟩ := addEdge_nodes_exists g (f s) t
    obtain ⟨l2, h2⟩ := ih (addEdge g (f s) t)
    exact ⟨l1 ++ l2, by simp only [List.foldl_cons]; rw [h2, h1, List.append_assoc]⟩

theorem foldl_addEdge_nodes_of_mem (f : String → String) (t : String) (l : List String) :
    ∀ g : Graph, (∀ s ∈ l, g.hasId (f s)) → g.hasId t →
      (l.foldl (fun h s => addEdge h (f s) t) g).nodes = g.nodes := by
  induction l with
  | nil => intro g _ _; rfl
  | cons s rest ih =>
    intro g hf ht
    simp only [List.foldl_cons]
    have hstep : (addEdge g (f s) t).nodes = g.nodes :=
      addEdge_nodes_of_mem g (f s) t (hf s (List.mem_cons_self s rest)) ht
    rw [ih (addEdge g (f s) t)
        (fun x hx => hasId_of_nodes_eq hstep _ (hf x (List.mem_cons_of_mem s hx)))
        (hasId_of_nodes_eq hstep _ ht), hstep]

/-! ### Dictionary lemmas -/

theorem dictGet_append_of_isSome {α : Type} (l1 l2 : List (String × α)) (k : String)
    (h : (dictGet l1 k).isSome) : dictGet (l1 ++ l2) k = dictGet l1 k := by
  induction l1 with
  | nil => simp [dictGet] at h
  | cons p rest ih =>
    by_cases hp : p.1 = k
    · simp [dictGet, hp]
    · simp only [List.cons_append, dictGet, hp, if_false] at h ⊢
      exact ih h

theorem dictGet_append_of_none {α : Type} (l1 l2 : List (String × α)) (k : String)
    (h : dictGet l1 k = none) : dictGet (l1 ++ l2) k = dictGet l2 k := by
  induction l1 with
  | nil => simp [dictGet]
  | cons p rest ih =>
    by_cases hp : p.1 = k
    · simp [dictGet, hp] at h
    · simp only [dictGet, hp, if_false] at h
      simp only [List.cons_append, dictGet, hp, if_false]
      exact ih h

theorem dictGet_eq_none_of_not_mem {α : Type} (l : List (String × α)) (k : String)
    (h : ∀ p ∈ l, p.1 ≠ k) : dictGet l k = none := by
  induction l with
  | nil => rfl
  | cons p rest ih =>
    simp only [dictGet, if_neg (h p (List.mem_cons_self p rest))]
    exact ih (fun q hq => h q (List.mem_cons_of_mem p hq))

/-! ### Path lemmas for `createRelation` -/

theorem crMono_arityFail (name : String) (g : Graph) (l1 l2 : String)
    (h : (lowerTokens l1).length ≠ 1) :
    createRelation name "mono" g l1 l2 =
      ⟨g, [Prompt.nucleusId], [Msg.nucleusArityErr]⟩ := by
  simp only [createRelation]
  rw [if_pos h]
  simp

theorem crMono_nucleusInvalid (name : String) (g : Graph) (l1 l2 : String)
    (h1 : (lowerTokens l1).length = 1)
    (h2 : ¬ ∀ t ∈ lowerTokens l1, t ∈ validIdsOf g) :
    createRelation name "mono" g l1 l2 =
      ⟨g, [Prompt.nucleusId], [Msg.invalidNucleus (lowerTokens l1)]⟩ := by
  simp only [createRelation]
  rw [if_neg (not_not_intro h1), if_pos h2]
  simp

theorem crMono_satellitesInvalid (name : String) (g : Graph) (l1 l2 : String)
    (h1 : (lowerTokens l1).length = 1)
    (h2 : ∀ t ∈ lowerTokens l1, t ∈ validIdsOf g)
    (h3 : ¬ ∀ t ∈ lowerTokens l2, t ∈ validIdsOf g) :
    createRelation name "mono" g l1 l2 =
      ⟨g, [Prompt.nucleusId, Prompt.satelliteId],
       [Msg.invalidTokens (diffTokens (lowerTokens l2) (validIdsOf g))]⟩ := by
  simp only [createRelation]
  rw [if_neg (not_not_intro h1), if_neg (not_not_intro h2), if_pos h3]
  simp

theorem crMono_success (name : String) (g : Graph) (l1 l2 : String)
    (h1 : (lowerTokens l1).length = 1)
    (h2 : ∀ t ∈ lowerTokens l1, t ∈ validIdsOf g)
    (h3 : ∀ t ∈ lowerTokens l2, t ∈ validIdsOf g) :
    createRelation name "mono" g l1 l2 =
      ⟨(lowerTokens l1).foldl
         (fun h n => addEdge h (strUpper n) (monoRelId l1 l2))
         ((lowerTokens l2).foldl
           (fun h s => addEdge h (edgeOrigin (relationIxOf g) s) (monoRelId l1 l2))
           (addNode g (monoRelId l1 l2)
             { kind := some "relation", nucleus := some (lowerTokens l1),
               satellites := some (lowerTokens l2), name := some name,
               id := some (monoRelId l1 l2) })),
       [Prompt.nucleusId, Prompt.satelliteId], []⟩ := by
  simp only [createRelation, monoRelId]
  rw [if_neg (not_not_intro h1), if_neg (not_not_intro h2), if_neg (not_not_intro h3)]
  simp

theorem crMulti_arityFail (name : String) (g : Graph) (l1 l2 : String)
    (h : (lowerTokens l1).length ≤ 1) :
    createRelation name "multi" g l1 l2 =
      ⟨g, [Prompt.nucleiId], [Msg.nucleiArityErr]⟩ := by
  simp only [createRelation]
  rw [if_pos h]
  simp

theorem crMulti_nucleiInvalid (name : String) (g : Graph) (l1 l2 : String)
    (h1 : 2 ≤ (lowerTokens l1).length)
    (h2 : ¬ ∀ t ∈ lowerTokens l1, t ∈ validIdsOf g) :
    createRelation name "multi" g l1 l2 =
      ⟨g, [Prompt.nucleiId],
       [Msg.invalidTokens (diffTokens (lowerTokens l1) (validIdsOf g))]⟩ := by
  simp only [createRelation]
  rw [if_neg (not_le.mpr h1), if_pos h2]
  simp
  push_neg at h2
  exact h2

theorem crMulti_success (name : String) (g : Graph) (l1 l2 : String)
    (h1 : 2 ≤ (lowerTokens l1).length)
    (h2 : ∀ t ∈ lowerTokens l1, t ∈ validIdsOf g) :
    createRelation name "multi" g l1 l2 =
      ⟨(lowerTokens l1).foldl
         (fun h n => addEdge h (edgeOrigin (relationIxOf g) n) (multiRelId l1))
         (addNode g (multiRelId l1)
           { kind := some "relation", nuclei := some (lowerTokens l1),
             name := some name, id := some (multiRelId l1) }),
       [Prompt.nucleiId], []⟩ := by
  simp only [createRelation, multiRelId]
  rw [if_neg (not_le.mpr h1), if_neg (not_not_intro h2)]
  simp
  exact h2

theorem crOtherKind (name kind : String) (g : Graph) (l1 l2 : String)
    (hm : kind ≠ "mono") (hmu : kind ≠ "multi") :
    createRelation name kind g l1 l2 = ⟨g, [], []⟩ := by
  simp only [createRelation]
  rw [if_neg hm, if_neg hmu]

theorem dictGet_map_update {α : Type} (l : List (String × α)) (n : String) (f : α → α) :
    dictGet (l.map (fun p => if p.1 = n then (p.1, f p.2) else p)) n =
      (dictGet l n).map f := by
  induction l with
  | nil => rfl
  | cons p rest ih =>
    by_cases hp : p.1 = n
    · simp [dictGet, hp]
    · simp only [List.map_cons, if_neg hp, dictGet, hp, if_false]
      exact ih

theorem dictGet_isSome_of_mem {α : Type} (l : List (String × α)) (k : String)
    (h : ∃ p ∈ l, p.1 = k) : (dictGet l k).isSome := by
  induction l with
  | nil => simp at h
  | cons p rest ih =>
    by_cases hp : p.1 = k
    · simp [dictGet, hp]
    · simp only [dictGet, hp, if_false]
      rcases h with ⟨q, hq, he⟩
      rcases List.mem_cons.mp hq with h1 | h1
      · exact absurd (h1 ▸ he) hp
      · exact ih ⟨q, h1, he⟩

theorem mem_keys_of_dictGet_isSome {α : Type} (l : List (String × α)) (k : String)
    (h : (dictGet l k).isSome) : ∃ p ∈ l, p.1 = k := by
  induction l with
  | nil => simp [dictGet] at h
  | cons p rest ih =>
    by_cases hp : p.1 = k
    · exact ⟨p, List.mem_cons_self p rest, hp⟩
    · simp only [dictGet, hp, if_false] at h
      rcases ih h with ⟨q, hq, he⟩
      exact ⟨q, List.mem_cons_of_mem p hq, he⟩

theorem hasId_append {g g2 : Graph} (l : List (String × NodeData))
    (h : g2.nodes = g.nodes ++ l) (n : String) : g.hasId n → g2.hasId n := by
  rintro ⟨p, hp, he⟩
  exact ⟨p, h ▸ List.mem_append_left l hp, he⟩

theorem hasId_of_append_singleton {g g2 : Graph} {n : String} {d : NodeData}
    (h : g2.nodes = g.nodes ++ [(n, d)]) : g2.hasId n :=
  ⟨(n, d), h ▸ List.mem_append_right _ (List.mem_singleton_self _), rfl⟩

theorem dictGet_addNode_self (g : Graph) (n : String) (d : NodeData) :
    ∃ old, dictGet (addNode g n d).nodes n = some (NodeData.updateWith old d) := by
  unfold addNode
  split
  case isTrue h =>
    have hs := dictGet_isSome_of_mem g.nodes n h
    rcases Option.isSome_iff_exists.mp hs with ⟨old, hold⟩
    refine ⟨old, ?_⟩
    show dictGet (g.nodes.map (fun p => if p.1 = n then (p.1, p.2.updateWith d) else p)) n = _
    rw [dictGet_map_update g.nodes n (fun x => x.updateWith d), hold]
    rfl
  case isFalse h =>
    refine ⟨{}, ?_⟩
    show dictGet (g.nodes ++ [(n, NodeData.updateWith {} d)]) n = _
    rw [dictGet_append_of_none _ _ _
      (dictGet_eq_none_of_not_mem _ _ (fun p hp he => h ⟨p, hp, he⟩))]
    simp [dictGet]

theorem mem_diffTokens (ts valid : List String) (t : String) :
    t ∈ diffTokens ts valid ↔ t ∈ ts ∧ t ∉ valid := by
  simp [diffTokens, List.mem_dedup, List.mem_filter]

theorem seqOpt_eq_some {α : Type} (l : List (Option α)) :
    ∀ r : List α, seqOpt l = some r → l = r.map some := by
  induction l with
  | nil =>
    intro r h
    simp only [seqOpt] at h
    rw [← Option.some_inj.mp h]
    rfl
  | cons o rest ih =>
    intro r h
    cases o with
    | none => simp [seqOpt] at h
    | some a =>
      simp only [seqOpt] at h
      cases hrest : seqOpt rest with
      | none => rw [hrest] at h; simp at h
      | some l2 =>
        rw [hrest] at h
        simp only [Option.some_inj] at h
        rw [← h, List.map_cons]
        rw [ih l2 hrest]

theorem map_eq_map_some_mem {α β : Type} (f : α → Option β) (l : List α) :
    ∀ r : List β, l.map f = r.map some → ∀ a ∈ l, ∃ b, f a = some b := by
  induction l with
  | nil => intro r _ a ha; simp at ha
  | cons x rest ih =>
    intro r h a ha
    cases r with
    | nil => simp at h
    | cons b rs =>
      simp only [List.map_cons, List.cons_eq_cons] at h
      rcases List.mem_cons.mp ha with h1 | h1
      · exact ⟨b, h1 ▸ h.1⟩
      · exact ih rs h.2 a h1

/-! ### Claim C2 -/

/-- C2: every call to `create_relation` that fails validation — mononuclear
nucleus token count different from 1, multinuclear nuclei token count at
most 1, or any supplied token outside the valid identifiers — prints one
error message and leaves the graph completely unchanged. -/
theorem c2_validation_failure_no_mutation (name kind : String) (g : Graph)
    (l1 l2 : String)
    (hfail :
      (kind = "mono" ∧ ((lowerTokens l1).length ≠ 1 ∨
        (∃ t ∈ lowerTokens l1, t ∉ validIdsOf g) ∨
        (∃ t ∈ lowerTokens l2, t ∉ validIdsOf g))) ∨
      (kind = "multi" ∧ ((lowerTokens l1).length ≤ 1 ∨
        (∃ t ∈ lowerTokens l1, t ∉ validIdsOf g)))) :
    (createRelation name kind g l1 l2).graph = g ∧
    (createRelation name kind g l1 l2).printed.length = 1 := by
  rcases hfail with ⟨hk, hf⟩ | ⟨hk, hf⟩
  · subst hk
    by_cases ha : (lowerTokens l1).length = 1
    · by_cases hn : ∀ t ∈ lowerTokens l1, t ∈ validIdsOf g
      · have hs : ¬ ∀ t ∈ lowerTokens l2, t ∈ validIdsOf g := by
          rcases hf with h | h | h
          · exact absurd ha h
          · rcases h with ⟨t, ht, hv⟩; exact absurd (hn t ht) hv
          · rcases h with ⟨t, ht, hv⟩
            exact fun hall => hv (hall t ht)
        rw [crMono_satellitesInvalid name g l1 l2 ha hn hs]
        exact ⟨rfl, rfl⟩
      · rw [crMono_nucleusInvalid name g l1 l2 ha hn]
        exact ⟨rfl, rfl⟩
    · rw [crMono_arityFail name g l1 l2 ha]
      exact ⟨rfl, rfl⟩
  · subst hk
    by_cases ha : (lowerTokens l1).length ≤ 1
    · rw [crMulti_arityFail name g l1 l2 ha]
      exact ⟨rfl, rfl⟩
    · have h2 : 2 ≤ (lowerTokens l1).length := Nat.lt_of_not_le ha
      have hn : ¬ ∀ t ∈ lowerTokens l1, t ∈ validIdsOf g := by
        rcases hf with h | h
        · exact absurd h ha
        · rcases h with ⟨t, ht, hv⟩
          exact fun hall => hv (hall t ht)
      rw [crMulti_nucleiInvalid name g l1 l2 h2 hn]
      exact ⟨rfl, rfl⟩

/-- Witness for C2 at a concrete failing call: mononuclear arity failure. -/
theorem c2_witness :
    (createRelation "cause" "mono" gW "a b" "b").graph = gW ∧
    (createRelation "cause" "mono" gW "a b" "b").printed.length = 1 :=
  c2_validation_failure_no_mutation "cause" "mono" gW "a b" "b"
    (Or.inl ⟨rfl, Or.inl (by decide)⟩)

/-! ### Claim C9 -/

/-- C9: for a catalog entry whose kind is neither `"mono"` nor `"multi"`,
`create_relation` falls through both branches: it issues no prompt, prints
nothing, and leaves the graph unchanged. -/
theorem c9_unknown_kind_silent (name kind : String) (g : Graph) (l1 l2 : String)
    (hm : kind ≠ "mono") (hmu : kind ≠ "multi") :
    createRelation name kind g l1 l2 = ⟨g, [], []⟩ :=
  crOtherKind name kind g l1 l2 hm hmu

/-- Witness for C9 at a concrete unknown relation kind. -/
theorem c9_witness :
    createRelation "span" "other" gW "a" "b" = ⟨gW, [], []⟩ :=
  c9_unknown_kind_silent "span" "other" gW "a" "b" (by decide) (by decide)

/-! ### Claim C8 -/

/-- C8: whenever `create_relation` rejects a token set because some token is
outside the valid identifiers, the graph is unchanged and the error message
carries exactly the set difference between the supplied tokens and the
valid identifiers: in the mononuclear nucleus path the reported one-token
list is entirely invalid, and in the satellite and nuclei paths the
reported list contains a token exactly when it was supplied and invalid. -/
theorem c8_reported_difference (name : String) (g : Graph) (l1 l2 : String) :
    ((lowerTokens l1).length = 1 → (∃ t ∈ lowerTokens l1, t ∉ validIdsOf g) →
      (createRelation name "mono" g l1 l2).graph = g ∧
      (createRelation name "mono" g l1 l2).printed =
        [Msg.invalidNucleus (lowerTokens l1)] ∧
      (∀ t, t ∈ lowerTokens l1 ↔ (t ∈ lowerTokens l1 ∧ t ∉ validIdsOf g))) ∧
    ((lowerTokens l1).length = 1 → (∀ t ∈ lowerTokens l1, t ∈ validIdsOf g) →
      (∃ t ∈ lowerTokens l2, t ∉ validIdsOf g) →
      (createRelation name "mono" g l1 l2).graph = g ∧
      (createRelation name "mono" g l1 l2).printed =
        [Msg.invalidTokens (diffTokens (lowerTokens l2) (validIdsOf g))] ∧
      (∀ t, t ∈ diffTokens (lowerTokens l2) (validIdsOf g) ↔
        (t ∈ lowerTokens l2 ∧ t ∉ validIdsOf g))) ∧
    (2 ≤ (lowerTokens l1).length → (∃ t ∈ lowerTokens l1, t ∉ validIdsOf g) →
      (createRelation name "multi" g l1 l2).graph = g ∧
      (createRelation name "multi" g l1 l2).printed =
        [Msg.invalidTokens (diffTokens (lowerTokens l1) (validIdsOf g))] ∧
      (∀ t, t ∈ diffTokens (lowerTokens l1) (validIdsOf g) ↔
        (t ∈ lowerTokens l1 ∧ t ∉ validIdsOf g))) := by
  refine ⟨?_, ?_, ?_⟩
  · intro ha hinv
    have hn : ¬ ∀ t ∈ lowerTokens l1, t ∈ validIdsOf g := by
      rcases hinv with ⟨t, ht, hv⟩
      exact fun hall => hv (hall t ht)
    rw [crMono_nucleusInvalid name g l1 l2 ha hn]
    refine ⟨rfl, rfl, fun t => ⟨fun ht => ⟨ht, ?_⟩, fun h => h.1⟩⟩
    rcases List.length_eq_one.mp ha with ⟨t0, ht0⟩
    rcases hinv with ⟨t1, ht1, hv1⟩
    rw [ht0] at ht ht1
    rw [List.mem_singleton.mp ht, ← List.mem_singleton.mp ht1]
    exact hv1
  · intro ha hn hinv
    have hs : ¬ ∀ t ∈ lowerTokens l2, t ∈ validIdsOf g := by
      rcases hinv with ⟨t, ht, hv⟩
      exact fun hall => hv (hall t ht)
    rw [crMono_satellitesInvalid name g l1 l2 ha hn hs]
    exact ⟨rfl, rfl, fun t => mem_diffTokens _ _ t⟩
  · intro ha hinv
    have hn : ¬ ∀ t ∈ lowerTokens l1, t ∈ validIdsOf g := by
      rcases hinv with ⟨t, ht, hv⟩
      exact fun hall => hv (hall t ht)
    rw [crMulti_nucleiInvalid name g l1 l2 ha hn]
    exact ⟨rfl, rfl, fun t => mem_diffTokens _ _ t⟩

/-- Witness for C8: a mononuclear call with an invalid nucleus and a
multinuclear call with one invalid nucleus among two. -/
theorem c8_witness :
    ((createRelation "cause" "mono" gW "z" "b").graph = gW ∧
     (createRelation "cause" "mono" gW "z" "b").printed =
       [Msg.invalidNucleus (lowerTokens "z")] ∧
     (∀ t, t ∈ lowerTokens "z" ↔ (t ∈ lowerTokens "z" ∧ t ∉ validIdsOf gW))) ∧
    ((createRelation "joint" "multi" gW "a z" "").graph = gW ∧
     (createRelation "joint" "multi" gW "a z" "").printed =
       [Msg.invalidTokens (diffTokens (lowerTokens "a z") (validIdsOf gW))] ∧
     (∀ t, t ∈ diffTokens (lowerTokens "a z") (validIdsOf gW) ↔
       (t ∈ lowerTokens "a z" ∧ t ∉ validIdsOf gW))) :=
  ⟨(c8_reported_difference "cause" gW "z" "b").1 (by decide) (by decide),
   (c8_reported_difference "joint" gW "a z" "").2.2 (by decide) (by decide)⟩

/-! ### Claim C1 -/

/-- C1 as stated is false: on a graph that already contains a node named
`A-B`, a valid mononuclear call with nucleus `a` and satellite `b`
satisfies every hypothesis of the claim yet adds no node at all, because
`add_node` on an existing identifier only updates its attributes. -/
theorem c1_counterexample :
    ((lowerTokens "a").length = 1 ∧
     (∀ t ∈ lowerTokens "a", t ∈ validIdsOf gC1) ∧
     lowerTokens "b" ≠ [] ∧
     (∀ t ∈ lowerTokens "b", t ∈ validIdsOf gC1)) ∧
    (createRelation "cause" "mono" gC1 "a" "b").graph.nodes.length ≠
      gC1.nodes.length + 1 := by decide

/-- C1 (amended): for every valid mononuclear call — one nucleus token and
at least one satellite token, all in the valid identifiers — in which,
additionally, the synthesized relation identifier does not already name a
node and every edge origin (alias-resolved satellite and upper-cased
nucleus) already names a node, the call adds exactly one node, with kind
`"relation"` and the synthesized identifier, and exactly
`len(satellites) + 1` edges, each directed into the new node. -/
theorem c1_mono_adds_relation (name : String) (g : Graph) (l1 l2 : String)
    (h1 : (lowerTokens l1).length = 1)
    (h2 : ∀ t ∈ lowerTokens l1, t ∈ validIdsOf g)
    (_hne : lowerTokens l2 ≠ [])
    (h3 : ∀ t ∈ lowerTokens l2, t ∈ validIdsOf g)
    (hfresh : ¬ g.hasId (monoRelId l1 l2))
    (horig : ∀ s ∈ lowerTokens l2, g.hasId (edgeOrigin (relationIxOf g) s))
    (hnuc : ∀ n ∈ lowerTokens l1, g.hasId (strUpper n)) :
    (createRelation name "mono" g l1 l2).graph.nodes =
      g.nodes ++ [(monoRelId l1 l2,
        { kind := some "relation", nucleus := some (lowerTokens l1),
          satellites := some (lowerTokens l2), name := some name,
          id := some (monoRelId l1 l2) })] ∧
    (createRelation name "mono" g l1 l2).graph.nodes.length = g.nodes.length + 1 ∧
    (createRelation name "mono" g l1 l2).graph.edges.length =
      g.edges.length + ((lowerTokens l2).length + 1) ∧
    (∀ e ∈ (createRelation name "mono" g l1 l2).graph.edges.drop g.edges.length,
      e.2 = monoRelId l1 l2) := by
  rw [crMono_success name g l1 l2 h1 h2 h3]
  dsimp only
  have hg1nodes := addNode_nodes_of_fresh g (monoRelId l1 l2)
    { kind := some "relation", nucleus := some (lowerTokens l1),
      satellites := some (lowerTokens l2), name := some name,
      id := some (monoRelId l1 l2) } hfresh
  have hg1edges := addNode_edges g (monoRelId l1 l2)
    { kind := some "relation", nucleus := some (lowerTokens l1),
      satellites := some (lowerTokens l2), name := some name,
      id := some (monoRelId l1 l2) }
  set g1 := addNode g (monoRelId l1 l2)
    { kind := some "relation", nucleus := some (lowerTokens l1),
      satellites := some (lowerTokens l2), name := some name,
      id := some (monoRelId l1 l2) } with hg1def
  have hg1rel : g1.hasId (monoRelId l1 l2) := hasId_of_append_singleton hg1nodes
  have hg2nodes : ((lowerTokens l2).foldl
      (fun h s => addEdge h (edgeOrigin (relationIxOf g) s) (monoRelId l1 l2)) g1).nodes
      = g1.nodes :=
    foldl_addEdge_nodes_of_mem (edgeOrigin (relationIxOf g)) (monoRelId l1 l2)
      (lowerTokens l2) g1
      (fun s hs => hasId_append _ hg1nodes _ (horig s hs)) hg1rel
  have hg2edges : ((lowerTokens l2).foldl
      (fun h s => addEdge h (edgeOrigin (relationIxOf g) s) (monoRelId l1 l2)) g1).edges
      = g.edges ++ (lowerTokens l2).map
          (fun s => (edgeOrigin (relationIxOf g) s, monoRelId l1 l2)) := by
    rw [foldl_addEdge_edges (edgeOrigin (relationIxOf g)) (monoRelId l1 l2)
      (lowerTokens l2) g1, hg1edges]
  set g2 := (lowerTokens l2).foldl
    (fun h s => addEdge h (edgeOrigin (relationIxOf g) s) (monoRelId l1 l2)) g1
    with hg2def
  have hg3nodes : ((lowerTokens l1).foldl
      (fun h n => addEdge h (strUpper n) (monoRelId l1 l2)) g2).nodes = g2.nodes :=
    foldl_addEdge_nodes_of_mem strUpper (monoRelId l1 l2) (lowerTokens l1) g2
      (fun n hn => hasId_of_nodes_eq hg2nodes _
        (hasId_append _ hg1nodes _ (hnuc n hn)))
      (hasId_of_nodes_eq hg2nodes _ hg1rel)
  have hg3edges : ((lowerTokens l1).foldl
      (fun h n => addEdge h (strUpper n) (monoRelId l1 l2)) g2).edges
      = g.edges ++ ((lowerTokens l2).map
          (fun s => (edgeOrigin (relationIxOf g) s, monoRelId l1 l2)) ++
          (lowerTokens l1).map (fun n => (strUpper n, monoRelId l1 l2))) := by
    rw [foldl_addEdge_edges strUpper (monoRelId l1 l2) (lowerTokens l1) g2,
      hg2edges, List.append_assoc]
  have hnodes : ((lowerTokens l1).foldl
      (fun h n => addEdge h (strUpper n) (monoRelId l1 l2)) g2).nodes
      = g.nodes ++ [(monoRelId l1 l2,
          { kind := some "relation", nucleus := some (lowerTokens l1),
            satellites := some (lowerTokens l2), name := some name,
            id := some (monoRelId l1 l2) })] := by
    rw [hg3nodes, hg2nodes, hg1nodes]
    rfl
  refine ⟨hnodes, ?_, ?_, ?_⟩
  · rw [hnodes]
    simp
  · rw [hg3edges]
    simp [h1, Nat.add_assoc]
  · intro e he
    rw [hg3edges, List.drop_left] at he
    rcases List.mem_append.mp he with h | h <;>
      · rcases List.mem_map.mp h with ⟨x, _, hx⟩
        rw [← hx]

/-- Witness for C1 (amended) on a two-element graph. -/
theorem c1_witness :
    (createRelation "cause" "mono" gW "a" "b").graph.nodes =
      gW.nodes ++ [(monoRelId "a" "b",
        { kind := some "relation", nucleus := some (lowerTokens "a"),
          satellites := some (lowerTokens "b"), name := some "cause",
          id := some (monoRelId "a" "b") })] ∧
    (createRelation "cause" "mono" gW "a" "b").graph.nodes.length =
      gW.nodes.length + 1 ∧
    (createRelation "cause" "mono" gW "a" "b").graph.edges.length =
      gW.edges.length + ((lowerTokens "b").length + 1) ∧
    (∀ e ∈ (createRelation "cause" "mono" gW "a" "b").graph.edges.drop
        gW.edges.length, e.2 = monoRelId "a" "b") :=
  c1_mono_adds_relation "cause" gW "a" "b" (by decide) (by decide) (by decide)
    (by decide) (by decide) (by decide) (by decide)

/-! ### Claim C3 -/

/-- C3 as stated is false: on a graph that already contains a node named
`A+B`, a valid multinuclear call with nuclei `a b` satisfies the claim's
hypotheses yet adds no node, because `add_node` on an existing identifier
only updates its attributes. -/
theorem c3_counterexample :
    (2 ≤ (lowerTokens "a b").length ∧
     (∀ t ∈ lowerTokens "a b", t ∈ validIdsOf gC3)) ∧
    (createRelation "joint" "multi" gC3 "a b" "").graph.nodes.length ≠
      gC3.nodes.length + 1 := by decide

/-- C3 (amended): for every valid multinuclear call — at least two nuclei
tokens, all in the valid identifiers — in which, additionally, the
synthesized identifier does not already name a node and every
alias-resolved edge origin already names a node, the call adds exactly one
node with the `+`-joined upper-cased identifier and exactly `len(nuclei)`
edges, each directed into the new node. -/
theorem c3_multi_adds_relation (name : String) (g : Graph) (l1 l2 : String)
    (h1 : 2 ≤ (lowerTokens l1).length)
    (h2 : ∀ t ∈ lowerTokens l1, t ∈ validIdsOf g)
    (hfresh : ¬ g.hasId (multiRelId l1))
    (horig : ∀ n ∈ lowerTokens l1, g.hasId (edgeOrigin (relationIxOf g) n)) :
    (createRelation name "multi" g l1 l2).graph.nodes =
      g.nodes ++ [(multiRelId l1,
        { kind := some "relation", nuclei := some (lowerTokens l1),
          name := some name, id := some (multiRelId l1) })] ∧
    (createRelation name "multi" g l1 l2).graph.nodes.length = g.nodes.length + 1 ∧
    (createRelation name "multi" g l1 l2).graph.edges.length =
      g.edges.length + (lowerTokens l1).length ∧
    (∀ e ∈ (createRelation name "multi" g l1 l2).graph.edges.drop g.edges.length,
      e.2 = multiRelId l1) := by
  rw [crMulti_success name g l1 l2 h1 h2]
  dsimp only
  have hg1nodes := addNode_nodes_of_fresh g (multiRelId l1)
    { kind := some "relation", nuclei := some (lowerTokens l1),
      name := some name, id := some (multiRelId l1) } hfresh
  have hg1edges := addNode_edges g (multiRelId l1)
    { kind := some "relation", nuclei := some (lowerTokens l1),
      name := some name, id := some (multiRelId l1) }
  set g1 := addNode g (multiRelId l1)
    { kind := some "relation", nuclei := some (lowerTokens l1),
      name := some name, id := some (multiRelId l1) } with hg1def
  have hg1rel : g1.hasId (multiRelId l1) := hasId_of_append_singleton hg1nodes
  have hg2nodes : ((lowerTokens l1).foldl
      (fun h n => addEdge h (edgeOrigin (relationIxOf g) n) (multiRelId l1)) g1).nodes
      = g1.nodes :=
    foldl_addEdge_nodes_of_mem (edgeOrigin (relationIxOf g)) (multiRelId l1)
      (lowerTokens l1) g1
      (fun n hn => hasId_append _ hg1nodes _ (horig n hn)) hg1rel
  have hg2edges : ((lowerTokens l1).foldl
      (fun h n => addEdge h (edgeOrigin (relationIxOf g) n) (multiRelId l1)) g1).edges
      = g.edges ++ (lowerTokens l1).map
          (fun n => (edgeOrigin (relationIxOf g) n, multiRelId l1)) := by
    rw [foldl_addEdge_edges (edgeOrigin (relationIxOf g)) (multiRelId l1)
      (lowerTokens l1) g1, hg1edges]
  have hnodes : ((lowerTokens l1).foldl
      (fun h n => addEdge h (edgeOrigin (relationIxOf g) n) (multiRelId l1)) g1).nodes
      = g.nodes ++ [(multiRelId l1,
          { kind := some "relation", nuclei := some (lowerTokens l1),
            name := some name, id := some (multiRelId l1) })] := by
    rw [hg2nodes, hg1nodes]
    rfl
  refine ⟨hnodes, ?_, ?_, ?_⟩
  · rw [hnodes]
    simp
  · rw [hg2edges]
    simp
  · intro e he
    rw [hg2edges, List.drop_left] at he
    rcases List.mem_map.mp he with ⟨x, _, hx⟩
    rw [← hx]

/-- Witness for C3 (amended) on a two-element graph. -/
theorem c3_witness :
    (createRelation "joint" "multi" gW "a b" "").graph.nodes =
      gW.nodes ++ [(multiRelId "a b",
        { kind := some "relation", nuclei := some (lowerTokens "a b"),
          name := some "joint", id := some (multiRelId "a b") })] ∧
    (createRelation "joint" "multi" gW "a b" "").graph.nodes.length =
      gW.nodes.length + 1 ∧
    (createRelation "joint" "multi" gW "a b" "").graph.edges.length =
      gW.edges.length + (lowerTokens "a b").length ∧
    (∀ e ∈ (createRelation "joint" "multi" gW "a b" "").graph.edges.drop
        gW.edges.length, e.2 = multiRelId "a b") :=
  c3_multi_adds_relation "joint" gW "a b" "" (by decide) (by decide)
    (by decide) (by decide)

/-! ### Claim C4 -/

/-- C4: in every successful call, the edges drawn for satellite tokens
(mononuclear) and nuclei tokens (multinuclear) originate from
`edgeOrigin`, which resolves a token through the relation alias index when
it is an alias key and upper-cases it otherwise; the last two conjuncts
spell out this case split of `edgeOrigin` itself. -/
theorem c4_alias_resolution (name : String) (g : Graph) (l1 l2 : String) :
    ((lowerTokens l1).length = 1 →
      (∀ t ∈ lowerTokens l1, t ∈ validIdsOf g) →
      (∀ t ∈ lowerTokens l2, t ∈ validIdsOf g) →
      (createRelation name "mono" g l1 l2).graph.edges =
        g.edges ++ ((lowerTokens l2).map
            (fun s => (edgeOrigin (relationIxOf g) s, monoRelId l1 l2)) ++
          (lowerTokens l1).map (fun n => (strUpper n, monoRelId l1 l2)))) ∧
    (2 ≤ (lowerTokens l1).length →
      (∀ t ∈ lowerTokens l1, t ∈ validIdsOf g) →
      (createRelation name "multi" g l1 l2).graph.edges =
        g.edges ++ (lowerTokens l1).map
          (fun n => (edgeOrigin (relationIxOf g) n, multiRelId l1))) ∧
    (∀ s o, dictGet (relationIxOf g) s = some o →
      edgeOrigin (relationIxOf g) s = o) ∧
    (∀ s, dictGet (relationIxOf g) s = none →
      edgeOrigin (relationIxOf g) s = strUpper s) := by
  refine ⟨?_, ?_, ?_, ?_⟩
  · intro h1 h2 h3
    rw [crMono_success name g l1 l2 h1 h2 h3]
    dsimp only
    rw [foldl_addEdge_edges strUpper (monoRelId l1 l2) (lowerTokens l1) _,
      foldl_addEdge_edges (edgeOrigin (relationIxOf g)) (monoRelId l1 l2)
        (lowerTokens l2) _,
      addNode_edges, List.append_assoc]
  · intro h1 h2
    rw [crMulti_success name g l1 l2 h1 h2]
    dsimp only
    rw [foldl_addEdge_edges (edgeOrigin (relationIxOf g)) (multiRelId l1)
        (lowerTokens l1) _,
      addNode_edges]
  · intro s o h
    unfold edgeOrigin
    rw [h]
  · intro s h
    unfold edgeOrigin
    rw [h]

/-- Witness for C4 on a graph with an existing relation aliased `r1`: the
satellite token `r1` is wired from the aliased relation `X-Y`, and in a
multinuclear call the nucleus token `r1` likewise. -/
theorem c4_witness :
    ((createRelation "cause" "mono" gA "a" "r1 b").graph.edges =
      gA.edges ++ ((lowerTokens "r1 b").map
          (fun s => (edgeOrigin (relationIxOf gA) s, monoRelId "a" "r1 b")) ++
        (lowerTokens "a").map (fun n => (strUpper n, monoRelId "a" "r1 b")))) ∧
    ((createRelation "joint" "multi" gA "r1 b" "").graph.edges =
      gA.edges ++ (lowerTokens "r1 b").map
        (fun n => (edgeOrigin (relationIxOf gA) n, multiRelId "r1 b"))) :=
  ⟨(c4_alias_resolution "cause" gA "a" "r1 b").1 (by decide) (by decide) (by decide),
   (c4_alias_resolution "joint" gA "r1 b" "").2.1 (by decide) (by decide)⟩

/-! ### Claim C5 -/

/-- C5: in every successful mononuclear call the edge for the single
nucleus token is drawn from the upper-cased token itself — the last edge
added is `(strUpper t, relation id)` whether or not `t` is an alias key,
so the nucleus is never resolved through the alias table. -/
theorem c5_nucleus_never_aliased (name : String) (g : Graph) (l1 l2 t : String)
    (ht : lowerTokens l1 = [t])
    (h2 : ∀ x ∈ lowerTokens l1, x ∈ validIdsOf g)
    (h3 : ∀ x ∈ lowerTokens l2, x ∈ validIdsOf g) :
    (createRelation name "mono" g l1 l2).graph.edges.getLast? =
      some (strUpper t, monoRelId l1 l2) := by
  have h1 : (lowerTokens l1).length = 1 := by rw [ht]; rfl
  rw [crMono_success name g l1 l2 h1 h2 h3]
  dsimp only
  rw [foldl_addEdge_edges strUpper (monoRelId l1 l2) (lowerTokens l1) _, ht]
  simp

/-- Witness for C5: the nucleus token `r1` is an assigned alias for the
relation `X-Y`, yet the nucleus edge is drawn from `R1`, not `X-Y`. -/
theorem c5_witness :
    dictGet (relationIxOf gA) "r1" = some "X-Y" ∧
    (createRelation "cause" "mono" gA "r1" "a").graph.edges.getLast? =
      some (strUpper "r1", monoRelId "r1" "a") :=
  ⟨by decide,
   c5_nucleus_never_aliased "cause" gA "r1" "a" "r1" (by decide) (by decide)
     (by decide)⟩

/-! ### Claim C10 -/

/-- C10: in every successful call, the new relation node stores the raw
lower-cased user tokens in input order in its `nucleus`/`satellites`
(mononuclear) or `nuclei` (multinuclear) attributes — alias tokens such as
`r1` are left unresolved there, even though the edges are drawn from the
alias-resolved origins. -/
theorem c10_raw_tokens_stored (name : String) (g : Graph) (l1 l2 : String) :
    ((lowerTokens l1).length = 1 →
      (∀ t ∈ lowerTokens l1, t ∈ validIdsOf g) →
      (∀ t ∈ lowerTokens l2, t ∈ validIdsOf g) →
      ∃ d, dictGet (createRelation name "mono" g l1 l2).graph.nodes
          (monoRelId l1 l2) = some d ∧
        d.kind = some "relation" ∧ d.nucleus = some (lowerTokens l1) ∧
        d.satellites = some (lowerTokens l2)) ∧
    (2 ≤ (lowerTokens l1).length →
      (∀ t ∈ lowerTokens l1, t ∈ validIdsOf g) →
      ∃ d, dictGet (createRelation name "multi" g l1 l2).graph.nodes
          (multiRelId l1) = some d ∧
        d.kind = some "relation" ∧ d.nuclei = some (lowerTokens l1)) := by
  constructor
  · intro h1 h2 h3
    rw [crMono_success name g l1 l2 h1 h2 h3]
    dsimp only
    obtain ⟨old, hold⟩ := dictGet_addNode_self g (monoRelId l1 l2)
      { kind := some "relation", nucleus := some (lowerTokens l1),
        satellites := some (lowerTokens l2), name := some name,
        id := some (monoRelId l1 l2) }
    set g1 := addNode g (monoRelId l1 l2)
      { kind := some "relation", nucleus := some (lowerTokens l1),
        satellites := some (lowerTokens l2), name := some name,
        id := some (monoRelId l1 l2) } with hg1def
    obtain ⟨ls, hls⟩ := foldl_addEdge_nodes_exists (edgeOrigin (relationIxOf g))
      (monoRelId l1 l2) (lowerTokens l2) g1
    set g2 := (lowerTokens l2).foldl
      (fun h s => addEdge h (edgeOrigin (relationIxOf g) s) (monoRelId l1 l2)) g1
      with hg2def
    obtain ⟨ln, hln⟩ := foldl_addEdge_nodes_exists strUpper
      (monoRelId l1 l2) (lowerTokens l1) g2
    have h1s : (dictGet g1.nodes (monoRelId l1 l2)).isSome := by rw [hold]; rfl
    have e2 : dictGet g2.nodes (monoRelId l1 l2) = dictGet g1.nodes (monoRelId l1 l2) := by
      rw [hls, dictGet_append_of_isSome _ _ _ h1s]
    have h2s : (dictGet g2.nodes (monoRelId l1 l2)).isSome := by
      rw [e2, hold]; rfl
    refine ⟨old.updateWith
      { kind := some "relation", nucleus := some (lowerTokens l1),
        satellites := some (lowerTokens l2), name := some name,
        id := some (monoRelId l1 l2) }, ?_, rfl, rfl, rfl⟩
    rw [hln, dictGet_append_of_isSome _ _ _ h2s, e2, hold]
  · intro h1 h2
    rw [crMulti_success name g l1 l2 h1 h2]
    dsimp only
    obtain ⟨old, hold⟩ := dictGet_addNode_self g (multiRelId l1)
      { kind := some "relation", nuclei := some (lowerTokens l1),
        name := some name, id := some (multiRelId l1) }
    set g1 := addNode g (multiRelId l1)
      { kind := some "relation", nuclei := some (lowerTokens l1),
        name := some name, id := some (multiRelId l1) } with hg1def
    obtain ⟨ln, hln⟩ := foldl_addEdge_nodes_exists (edgeOrigin (relationIxOf g))
      (multiRelId l1) (lowerTokens l1) g1
    have h1s : (dictGet g1.nodes (multiRelId l1)).isSome := by rw [hold]; rfl
    refine ⟨old.updateWith
      { kind := some "relation", nuclei := some (lowerTokens l1),
        name := some name, id := some (multiRelId l1) }, ?_, rfl, rfl⟩
    rw [hln, dictGet_append_of_isSome _ _ _ h1s, hold]

/-- Witness for C10: the satellite list stores the alias token `r1`
unresolved, and a multinuclear nuclei list stores its raw tokens. -/
theorem c10_witness :
    (∃ d, dictGet (createRelation "cause" "mono" gA "a" "r1 b").graph.nodes
        (monoRelId "a" "r1 b") = some d ∧
      d.kind = some "relation" ∧ d.nucleus = some (lowerTokens "a") ∧
      d.satellites = some (lowerTokens "r1 b")) ∧
    (∃ d, dictGet (createRelation "joint" "multi" gA "r1 b" "").graph.nodes
        (multiRelId "r1 b") = some d ∧
      d.kind = some "relation" ∧ d.nuclei = some (lowerTokens "r1 b")) :=
  ⟨(c10_raw_tokens_stored "cause" gA "a" "r1 b").1 (by decide) (by decide)
     (by decide),
   (c10_raw_tokens_stored "joint" gA "r1 b" "").2 (by decide) (by decide)⟩

/-! ### Lemmas about the node dictionary and the grouper folds -/

theorem dictInsert_fresh {α : Type} (acc : List (String × α)) (k : String) (v : α)
    (h : ∀ q ∈ acc, q.1 ≠ k) : dictInsert acc k v = acc ++ [(k, v)] := by
  induction acc with
  | nil => rfl
  | cons q rest ih =>
    simp only [dictInsert, if_neg (h q (List.mem_cons_self q rest)), List.cons_append]
    rw [ih (fun q2 hq2 => h q2 (List.mem_cons_of_mem q hq2))]

theorem foldl_upperDict_eq (l : List (String × NodeData)) :
    ∀ acc : List (String × Option String),
      (∀ p ∈ l, ∀ q ∈ acc, q.1 ≠ strUpper p.1) →
      (l.map (fun p => strUpper p.1)).Nodup →
      l.foldl (fun d p => dictInsert d (strUpper p.1) p.2.kind) acc =
        acc ++ l.map (fun p => (strUpper p.1, p.2.kind)) := by
  induction l with
  | nil => intro acc _ _; simp
  | cons p rest ih =>
    intro acc hfresh hnd
    simp only [List.foldl_cons, List.map_cons]
    rw [dictInsert_fresh acc (strUpper p.1) p.2.kind
      (fun q hq => hfresh p (List.mem_cons_self p rest) q hq)]
    rw [ih (acc ++ [(strUpper p.1, p.2.kind)]) ?_ (List.nodup_cons.mp hnd).2]
    · rw [List.append_assoc]
      rfl
    · intro p2 hp2 q hq
      rcases List.mem_append.mp hq with h1 | h1
      · exact hfresh p2 (List.mem_cons_of_mem p hp2) q h1
      · rw [List.mem_singleton.mp h1]
        intro he
        have he2 : strUpper p.1 = strUpper p2.1 := he
        apply (List.nodup_cons.mp hnd).1
        show strUpper p.1 ∈ List.map (fun p => strUpper p.1) rest
        rw [he2]
        exact List.mem_map_of_mem (fun p => strUpper p.1) hp2

theorem getNodeDict_none_eq (g : Graph)
    (hnd : (g.nodes.map (fun p => strUpper p.1)).Nodup) :
    getNodeDict g none = g.nodes.map (fun p => (strUpper p.1, p.2.kind)) := by
  unfold getNodeDict
  rw [show (g.nodes.filter (fun p =>
      match (none : Option String) with
      | some k => p.2.kind == some k
      | none => true)) = g.nodes.filter (fun _ => true) from rfl]
  rw [List.filter_true]
  exact foldl_upperDict_eq g.nodes [] (fun p _ q hq => absurd hq (List.not_mem_nil q)) hnd

theorem foldl_icStep_edges (userInput : List String)
    (entries : List (String × Option String)) :
    ∀ g : Graph,
      (entries.foldl (fun h p =>
        if p.2 = some "imageConsts" then
          userInput.foldl (fun h2 u => addEdge h2 (strUpper u) (strUpper p.1)) h
        else h) g).edges =
      g.edges ++ (entries.filter
          (fun p => decide (p.2 = some "imageConsts"))).flatMap
        (fun p => userInput.map (fun u => (strUpper u, strUpper p.1))) := by
  induction entries with
  | nil => intro g; simp
  | cons p rest ih =>
    intro g
    simp only [List.foldl_cons]
    by_cases hp : p.2 = some "imageConsts"
    · rw [if_pos hp, ih, foldl_addEdge_edges strUpper (strUpper p.1) userInput g]
      simp [hp, List.append_assoc]
    · rw [if_neg hp, ih]
      simp [hp]

theorem foldl_icStep_nodes (userInput : List String)
    (entries : List (String × Option String)) :
    ∀ g : Graph,
      (∀ p ∈ entries, p.2 = some "imageConsts" → g.hasId (strUpper p.1)) →
      (∀ u ∈ userInput, g.hasId (strUpper u)) →
      (entries.foldl (fun h p =>
        if p.2 = some "imageConsts" then
          userInput.foldl (fun h2 u => addEdge h2 (strUpper u) (strUpper p.1)) h
        else h) g).nodes = g.nodes := by
  induction entries with
  | nil => intro g _ _; rfl
  | cons p rest ih =>
    intro g himg hu
    simp only [List.foldl_cons]
    by_cases hp : p.2 = some "imageConsts"
    · rw [if_pos hp]
      have hstep : (userInput.foldl
          (fun h2 u => addEdge h2 (strUpper u) (strUpper p.1)) g).nodes = g.nodes :=
        foldl_addEdge_nodes_of_mem strUpper (strUpper p.1) userInput g hu
          (himg p (List.mem_cons_self p rest) hp)
      rw [ih _ (fun q hq hq2 => hasId_of_nodes_eq hstep _
            (himg q (List.mem_cons_of_mem p hq) hq2))
          (fun u hu2 => hasId_of_nodes_eq hstep _ (hu u hu2)), hstep]
    · rw [if_neg hp]
      exact ih g (fun q hq hq2 => himg q (List.mem_cons_of_mem p hq) hq2) hu

theorem filter_map_eq {α β : Type} (f : α → β) (pr : β → Bool) (l : List α) :
    (l.map f).filter pr = (l.filter (fun a => pr (f a))).map f := by
  induction l with
  | nil => rfl
  | cons a rest ih =>
    by_cases ha : pr (f a) = true
    · simp [List.filter_cons, ha, ih]
    · simp [List.filter_cons, ha, ih]

theorem bind_map_eq {α β γ : Type} (f : α → β) (g2 : β → List γ) (l : List α) :
    (l.map f).flatMap g2 = l.flatMap (fun a => g2 (f a)) := by
  induction l with
  | nil => rfl
  | cons a rest ih => simp [ih]

theorem bind_congr_mem {α β : Type} (l : List α) (f g2 : α → List β)
    (h : ∀ a ∈ l, f a = g2 a) : l.flatMap f = l.flatMap g2 := by
  induction l with
  | nil => rfl
  | cons a rest ih =>
    simp only [List.flatMap_cons]
    rw [h a (List.mem_cons_self a rest),
      ih (fun x hx => h x (List.mem_cons_of_mem a hx))]

theorem length_bind_const {α β : Type} (l : List α) (f : α → List β) (n : Nat)
    (h : ∀ a ∈ l, (f a).length = n) : (l.flatMap f).length = l.length * n := by
  induction l with
  | nil => simp
  | cons a rest ih =>
    simp only [List.flatMap_cons, List.length_append, List.length_cons]
    rw [h a (List.mem_cons_self a rest),
      ih (fun x hx => h x (List.mem_cons_of_mem a hx)), Nat.succ_mul, Nat.add_comm]

theorem map_congr_mem {α β : Type} (l : List α) (f g2 : α → β)
    (h : ∀ a ∈ l, f a = g2 a) : l.map f = l.map g2 := by
  induction l with
  | nil => rfl
  | cons a rest ih =>
    simp only [List.map_cons]
    rw [h a (List.mem_cons_self a rest),
      ih (fun x hx => h x (List.mem_cons_of_mem a hx))]

/-! ### Claim C7 -/

/-- C7 as stated is false: on a graph that already contains a node named
`A+B`, grouping `a b` (both present, neither of kind `"imageConsts"`)
re-synthesizes the identifier `A+B` and `add_node` merely updates the
existing node, so no new node is added. -/
theorem c7_counterexample :
    seqOpt (["a", "b"].map (fun u => dictGet (getNodeDict gC7 none) (strUpper u))) =
      some [some "node", some "node"] ∧
    some "imageConsts" ∉ ([some "node", some "node"] : List (Option String)) ∧
    Option.map (fun g2 => g2.nodes.length) (groupNodes gC7 ["a", "b"]) =
      some gC7.nodes.length := by decide

/-- C7 (amended): for every `group_nodes` call whose inputs are all present
in the node index with no `"imageConsts"` kind among them, and in which,
additionally, the upper-cased `+`-join of the inputs is not already a node
identifier and each upper-cased input already identifies a node, exactly
one new node of kind `"group"` is added, with the joined identifier, and
exactly `len(user_input)` edges, each from an upper-cased input into the
new node. -/
theorem c7_group_new_node (g : Graph) (userInput : List String)
    (kinds : List (Option String))
    (hlk : seqOpt (userInput.map
      (fun u => dictGet (getNodeDict g none) (strUpper u))) = some kinds)
    (hnoimg : some "imageConsts" ∉ kinds)
    (hfresh : ¬ g.hasId (strUpper (joinSep "+" userInput)))
    (horig : ∀ u ∈ userInput, g.hasId (strUpper u)) :
    ∃ g2, groupNodes g userInput = some g2 ∧
      g2.nodes = g.nodes ++
        [(strUpper (joinSep "+" userInput), { kind := some "group" })] ∧
      g2.nodes.length = g.nodes.length + 1 ∧
      g2.edges = g.edges ++ userInput.map
        (fun u => (strUpper u, strUpper (joinSep "+" userInput))) ∧
      g2.edges.length = g.edges.length + userInput.length ∧
      (∀ e ∈ g2.edges.drop g.edges.length,
        e.2 = strUpper (joinSep "+" userInput)) := by
  simp only [groupNodes, hlk]
  rw [if_neg hnoimg]
  have hg1nodes := addNode_nodes_of_fresh g (strUpper (joinSep "+" userInput))
    { kind := some "group" } hfresh
  have hg1edges := addNode_edges g (strUpper (joinSep "+" userInput))
    { kind := some "group" }
  set g1 := addNode g (strUpper (joinSep "+" userInput)) { kind := some "group" }
    with hg1def
  have hrel : g1.hasId (strUpper (joinSep "+" userInput)) :=
    hasId_of_append_singleton hg1nodes
  have hn : (userInput.foldl
      (fun h u => addEdge h (strUpper u) (strUpper (joinSep "+" userInput))) g1).nodes
      = g1.nodes :=
    foldl_addEdge_nodes_of_mem strUpper (strUpper (joinSep "+" userInput))
      userInput g1 (fun u hu => hasId_append _ hg1nodes _ (horig u hu)) hrel
  have hedg : (userInput.foldl
      (fun h u => addEdge h (strUpper u) (strUpper (joinSep "+" userInput))) g1).edges
      = g.edges ++ userInput.map
          (fun u => (strUpper u, strUpper (joinSep "+" userInput))) := by
    rw [foldl_addEdge_edges strUpper (strUpper (joinSep "+" userInput))
      userInput g1, hg1edges]
  refine ⟨_, rfl, ?_, ?_, hedg, ?_, ?_⟩
  · rw [hn, hg1nodes]
    rfl
  · rw [hn, hg1nodes]
    simp
  · rw [hedg]
    simp
  · intro e he
    rw [hedg, List.drop_left] at he
    rcases List.mem_map.mp he with ⟨x, _, hx⟩
    rw [← hx]

/-- Witness for C7 (amended) on a two-element graph. -/
theorem c7_witness :
    ∃ g2, groupNodes gW ["a", "b"] = some g2 ∧
      g2.nodes = gW.nodes ++
        [(strUpper (joinSep "+" ["a", "b"]), { kind := some "group" })] ∧
      g2.nodes.length = gW.nodes.length + 1 ∧
      g2.edges = gW.edges ++ ["a", "b"].map
        (fun u => (strUpper u, strUpper (joinSep "+" ["a", "b"]))) ∧
      g2.edges.length = gW.edges.length + (["a", "b"] : List String).length ∧
      (∀ e ∈ g2.edges.drop gW.edges.length,
        e.2 = strUpper (joinSep "+" ["a", "b"])) :=
  c7_group_new_node gW ["a", "b"] [some "node", some "node"] (by decide)
    (by decide) (by decide) (by decide)

/-! ### Claim C6 -/

/-- C6 as stated is false: on a graph whose single image-constants node has
a lower-case identifier, the fan-out edges are drawn from and to the
upper-cased identifier, which names no existing node, so `add_edge`
creates a new node — the node count grows from 1 to 2. -/
theorem c6_counterexample :
    seqOpt (["const0"].map (fun u => dictGet (getNodeDict gC6 none) (strUpper u))) =
      some [some "imageConsts"] ∧
    some "imageConsts" ∈ ([some "imageConsts"] : List (Option String)) ∧
    Option.map (fun g2 => g2.nodes.length) (groupNodes gC6 ["const0"]) = some 2 ∧
    gC6.nodes.length = 1 := by decide

/-- C6 (amended): for every `group_nodes` call whose inputs are all present
in the node index with at least one of kind `"imageConsts"`, on a graph
with distinct node identifiers that are all fixed under upper-casing, no
new node is created, and for every node of kind `"imageConsts"` and every
input identifier one edge is added from the upper-cased identifier to that
node, so the number of new edges is `len(user_input)` times the number of
existing `"imageConsts"` nodes. -/
theorem c6_imageconsts_fanout (g : Graph) (userInput : List String)
    (kinds : List (Option String))
    (hids : (g.nodes.map Prod.fst).Nodup)
    (hup : ∀ p ∈ g.nodes, strUpper p.1 = p.1)
    (hlk : seqOpt (userInput.map
      (fun u => dictGet (getNodeDict g none) (strUpper u))) = some kinds)
    (himg : some "imageConsts" ∈ kinds) :
    ∃ g2, groupNodes g userInput = some g2 ∧
      g2.nodes = g.nodes ∧
      g2.edges = g.edges ++
        (g.nodes.filter (fun p => decide (p.2.kind = some "imageConsts"))).flatMap
          (fun p => userInput.map (fun u => (strUpper u, p.1))) ∧
      g2.edges.length = g.edges.length + userInput.length *
        (g.nodes.filter (fun p => decide (p.2.kind = some "imageConsts"))).length := by
  have hnd2 : (g.nodes.map (fun p => strUpper p.1)).Nodup := by
    rw [map_congr_mem g.nodes (fun p => strUpper p.1) Prod.fst hup]
    exact hids
  have hdict := getNodeDict_none_eq g hnd2
  have hkeys : ∀ u ∈ userInput, g.hasId (strUpper u) := by
    intro u hu
    obtain ⟨b, hb⟩ := map_eq_map_some_mem
      (fun u => dictGet (getNodeDict g none) (strUpper u)) userInput kinds
      (seqOpt_eq_some _ kinds hlk) u hu
    have hsome : (dictGet (getNodeDict g none) (strUpper u)).isSome := by
      rw [hb]; rfl
    obtain ⟨p, hp, he⟩ := mem_keys_of_dictGet_isSome _ _ hsome
    rw [hdict] at hp
    obtain ⟨q, hq, hfq⟩ := List.mem_map.mp hp
    refine ⟨q, hq, ?_⟩
    have h1 : strUpper q.1 = p.1 := by rw [← hfq]
    rw [← he, ← h1, hup q hq]
  have himgkeys : ∀ p ∈ getNodeDict g none, p.2 = some "imageConsts" →
      g.hasId (strUpper p.1) := by
    intro p hp _
    rw [hdict] at hp
    obtain ⟨q, hq, hfq⟩ := List.mem_map.mp hp
    refine ⟨q, hq, ?_⟩
    have h1 : p.1 = strUpper q.1 := by rw [← hfq]
    rw [h1, hup q hq, hup q hq]
  simp only [groupNodes, hlk]
  rw [if_pos himg]
  refine ⟨_, rfl, ?_, ?_, ?_⟩
  · exact foldl_icStep_nodes userInput (getNodeDict g none) g himgkeys hkeys
  · rw [foldl_icStep_edges userInput (getNodeDict g none) g, hdict,
      filter_map_eq, bind_map_eq]
    dsimp only
    refine congrArg (fun x => g.edges ++ x) ?_
    apply bind_congr_mem
    intro q hq
    have e := hup q (List.mem_of_mem_filter hq)
    rw [e, e]
  · rw [foldl_icStep_edges userInput (getNodeDict g none) g, List.length_append,
      length_bind_const _ _ userInput.length (fun p _ => by simp),
      hdict, filter_map_eq]
    dsimp only
    rw [List.length_map, Nat.mul_comm]

/-- Witness for C6 (amended): one image-constants node `I0` and one diagram
element `A`, grouped as `a i0`. -/
theorem c6_witness :
    ∃ g2, groupNodes gI ["a", "i0"] = some g2 ∧
      g2.nodes = gI.nodes ∧
      g2.edges = gI.edges ++
        (gI.nodes.filter (fun p => decide (p.2.kind = some "imageConsts"))).flatMap
          (fun p => ["a", "i0"].map (fun u => (strUpper u, p.1))) ∧
      g2.edges.length = gI.edges.length + (["a", "i0"] : List String).length *
        (gI.nodes.filter (fun p => decide (p.2.kind = some "imageConsts"))).length :=
  c6_imageconsts_fanout gI ["a", "i0"] [some "node", some "imageConsts"]
    (by decide) (by decide) (by decide) (by decide)

end AI2D

